import Mathlib

/-!
Verification development for the breeze-agent interview orchestration engine.

This file gives a shallow embedding, in Lean 4, of the core data model and
operations of the repository:

* the message / editor / interview-state data model
  (`src/web_research_graph/state.py`);
* `sanitize_name` and `swap_roles`
  (`src/web_research_graph/utils.py`, `src/interviews/utils.py`);
* the two `route_messages` router implementations
  (`src/web_research_graph/interviews_graph/router.py` and
  `src/interviews/utils.py`);
* the parallel conductor's merge/aggregation step and its reference-map
  collision handling
  (`src/web_research_graph/interviews_graph/parallel_conductor.py`);
* the precondition checks of session initialization and question generation
  (`src/web_research_graph/interviews_graph/nodes/initialize.py`,
  `src/web_research_graph/interviews_graph/nodes/question.py`);
* a small-step interleaving model of the `asyncio.Semaphore`-gated region
  used by the parallel conductor.

Messages in the source are langchain `AIMessage` / `HumanMessage` values;
only the fields the core reads are modelled: the message class (`isAI`),
the optional `name`, the string `content`, and the `additional_kwargs`
entries `wants_to_end` / `end_reason` (an absent or empty kwargs dict is
modelled as `wants_to_end = false`, `end_reason = none`, matching the
`hasattr`/truthiness guard plus `.get(_, False)` reads in the source).
-/

/-- A langchain chat message as consumed by the interview core:
`isAI = true` models `AIMessage`, `isAI = false` models `HumanMessage`. -/
structure Message where
  isAI : Bool
  name : Option String
  content : String
  wants_to_end : Bool := false
  end_reason : Option String := none
deriving DecidableEq, Repr

/-- An editor persona (`state.py`, dataclass `Editor`). -/
structure Editor where
  affiliation : String
  name : String
  role : String
  description : String
deriving DecidableEq, Repr

/-- A group of editors (`state.py`, dataclass `Perspectives`). -/
structure Perspectives where
  editors : List Editor
deriving DecidableEq, Repr

/-- References are Python dicts `source-id -> content`; modelled as ordered
association lists with insert-order semantics (see `dictInsert`). -/
abbrev RefMap := List (String × String)

/-- The interview state (`state.py`, dataclass `InterviewState`).
Fields the core never reads are kept with their Python defaults. -/
structure InterviewState where
  messages : List Message := []
  references : Option RefMap := none
  editor : Option Editor := none
  editors : List Editor := []
  current_editor_index : Nat := 0
  is_complete : Bool := false
  perspectives : Option Perspectives := none
deriving DecidableEq, Repr

/-- The `expert` speaker name constant shared by both router modules. -/
def EXPERT_NAME : String := "expert"

/-- The `MAX_TURNS = 3` constant shared by both router modules. -/
def MAX_TURNS : Nat := 3

/-- Contiguous-sublist test on character lists: `listInfix needle hay`
holds when `needle` occurs contiguously inside `hay`. -/
def listInfix (needle : List Char) : List Char → Bool
  | [] => needle.isEmpty
  | c :: rest => needle.isPrefixOf (c :: rest) || listInfix needle rest

/-- Python's substring test `needle in hay`. -/
def strContains (hay needle : String) : Bool :=
  listInfix needle.toList hay.toList

/-- Python's `s.endswith(post)`. -/
def strEndsWith (s post : String) : Bool :=
  post.toList.reverse.isPrefixOf s.toList.reverse

/-- One character of `sanitize_name`: the regex `[^a-zA-Z0-9_-]` replaced
by an underscore. -/
def sanitizeChar (c : Char) : Char :=
  if c.isAlphanum || c = '_' || c = '-' then c else '_'

/-- `sanitize_name` from `web_research_graph/utils.py` (identical copy in
`interviews/utils.py`): replace every character outside `[a-zA-Z0-9_-]`
with an underscore. -/
def sanitize_name (s : String) : String :=
  String.mk (s.toList.map sanitizeChar)

/-- The per-message action of `swap_roles`: an `AIMessage` whose `name`
differs from the target identity is rebuilt as a `HumanMessage` with the
same fields (`HumanMessage(**message.dict(exclude=\x7b"type"\x7d))`);
every other message is kept as is. -/
def swapMsg (name : String) (m : Message) : Message :=
  if m.isAI && !(m.name == some name) then { m with isAI := false } else m

/-- `swap_roles` from `web_research_graph/utils.py` (identical copy in
`interviews/utils.py`): map `swapMsg` over the log and rebuild the state,
carrying `editor`, `references`, `editors` and `current_editor_index`
(the remaining fields take their dataclass defaults, as in the source). -/
def swap_roles (state : InterviewState) (name : String) : InterviewState :=
  { messages := state.messages.map (swapMsg name)
    editor := state.editor
    references := state.references
    editors := state.editors
    current_editor_index := state.current_editor_index }

/-- The separator test used by both routers inside their boundary scan:
`isinstance(m, AIMessage) and m.name == "system" and current_editor_name
in m.content`. -/
def isSeparatorFor (editorName : String) (m : Message) : Bool :=
  m.isAI && m.name == some "system" && strContains m.content editorName

/-- The boundary scan shared verbatim by both `route_messages`
implementations: iterate the log from the front and stop at the first
separator naming the current editor; default to index 0. -/
def conversation_start (messages : List Message) (editorName : String) : Nat :=
  match messages.findIdx? (isSeparatorFor editorName) with
  | some i => i
  | none => 0

namespace Router

/-- The expert-response count of `router.py`: every `AIMessage` named
`expert` in the current segment. -/
def expertResponses (current : List Message) : Nat :=
  (current.filter (fun m => m.isAI && m.name == some EXPERT_NAME)).length

/-- The end-intent test of `router.py`: the segment has at least two
messages and its second-to-last message is an `AIMessage` authored by the
current editor whose metadata carries `wants_to_end`. -/
def prevEditorWantsEnd (current : List Message) (editorName : String) : Bool :=
  if 2 ≤ current.length then
    match current.get? (current.length - 2) with
    | some prev => prev.isAI && prev.name == some editorName && prev.wants_to_end
    | none => false
  else false

/-- Core of `router.py`'s `route_messages` after the empty-log guard and
the editor lookup: the branch structure of lines 19-89 of the source. -/
def routeCore (messages : List Message) (editorName : String) : String :=
  let current := messages.drop (conversation_start messages editorName)
  match current.getLast? with
  | none => "ask_question"
  | some last =>
    if last.isAI && last.name == some EXPERT_NAME then
      if prevEditorWantsEnd current editorName then "next_editor"
      else if MAX_TURNS ≤ expertResponses current then "next_editor"
      else "ask_question"
    else if last.isAI && last.name == some editorName then "ask_question"
    else "ask_question"

/-- `route_messages` from
`web_research_graph/interviews_graph/router.py`. The result is `none`
when the source would raise (`state.editor` is `None` and the log is
non-empty, so `state.editor.name` is read); otherwise `some` of the
returned route string. -/
def route_messages (state : InterviewState) : Option String :=
  if state.messages.isEmpty then some "end"
  else
    match state.editor with
    | none => none
    | some editor => some (routeCore state.messages (sanitize_name editor.name))

end Router

namespace InterviewsUtils

/-- The fixed legacy termination phrase matched by `interviews/utils.py`. -/
def thankYouPhrase : String := "Thank you so much for your help!"

/-- The expert-response count of `interviews/utils.py`: an `AIMessage`
named `expert` at segment position `i` is counted only when `i ≥ 1` and
the message at position `i - 1` has the current editor's name
(the slice `current_messages[max(0, i-1):i]`). -/
def currentResponses (current : List Message) (editorName : String) : Nat :=
  (current.enum.filter (fun p =>
    p.2.isAI && p.2.name == some EXPERT_NAME &&
      (decide (1 ≤ p.1) &&
        match current.get? (p.1 - 1) with
        | some prev => prev.name == some editorName
        | none => false))).length

/-- Core of `interviews/utils.py`'s `route_messages` after the empty-log
guard and the editor lookup: lines 40-79 of the source. -/
def routeCore (messages : List Message) (editorName : String) : String :=
  let current := messages.drop (conversation_start messages editorName)
  if MAX_TURNS ≤ currentResponses current editorName then "next_editor"
  else if current.length < 2 then "ask_question"
  else
    let editorMessages := current.filter
      (fun m => m.isAI && m.name == some editorName)
    match editorMessages.getLast? with
    | some m =>
      if strEndsWith m.content thankYouPhrase then "next_editor"
      else "ask_question"
    | none => "ask_question"

/-- `route_messages` from `src/interviews/utils.py`; `none` models the
`AttributeError` raised when the log is non-empty and no editor is set. -/
def route_messages (state : InterviewState) : Option String :=
  if state.messages.isEmpty then some "end"
  else
    match state.editor with
    | none => none
    | some editor => some (routeCore state.messages (sanitize_name editor.name))

end InterviewsUtils

/-- The top-level graph state (`state.py`, dataclass `State`). The outline,
related-topics, article and topic fields are out-of-scope payloads the
conductor only copies through; they are modelled as opaque strings. -/
structure State where
  messages : List Message := []
  outline : Option String := none
  related_topics : Option String := none
  perspectives : Option Perspectives := none
  article : Option String := none
  references : Option RefMap := none
  topic : Option String := none
  all_conversations : Option RefMap := none
deriving DecidableEq, Repr

/-- Keys of an association-list dict. -/
def dictKeys (m : RefMap) : List String := m.map Prod.fst

/-- Python's `k in dict`. -/
def dictContains (m : RefMap) (k : String) : Bool := (dictKeys m).contains k

/-- Python's `dict[k]` lookup as an option. -/
def dictGet (m : RefMap) (k : String) : Option String :=
  (m.find? (fun kv => kv.1 == k)).map Prod.snd

/-- Python's `dict[k] = v`: replace the value at an existing key in place,
or append a new entry at the end. -/
def dictInsert (m : RefMap) (k v : String) : RefMap :=
  if dictContains m k then
    m.map (fun kv => if kv.1 == k then (kv.1, v) else kv)
  else m ++ [(k, v)]

/-- The outcome of one per-editor interview run handed back to the merge
loop: the dict returned by `interview_graph.ainvoke`, restricted to the
two keys the merge reads (`messages` and `references`). -/
structure EditorResult where
  messages : List Message
  references : RefMap
deriving DecidableEq, Repr

/-- The separator appended by the merge loop of
`parallel_conduct_interviews` before each editor's segment:
`AIMessage(content=f"\n--- Interview with \x7beditor_name\x7d ---\n",
name="system")`. -/
def separatorFor (editorName : String) : Message :=
  { isAI := true
    name := some "system"
    content := "\n--- Interview with " ++ editorName ++ " ---\n" }

/-- The reference-merge inner loop of `parallel_conduct_interviews`
(lines 102-107): for each `(url, content)` of one editor's result, insert
under `url` when it is still free, otherwise under the editor-name-prefixed
key `f"\x7beditor_name\x7d_\x7burl\x7d"`. -/
def mergeEditorRefs (merged : RefMap) (editorName : String)
    (refs : RefMap) : RefMap :=
  refs.foldl (fun acc kv =>
    let finalUrl := if dictContains acc kv.1 then editorName ++ "_" ++ kv.1
      else kv.1
    dictInsert acc finalUrl kv.2) merged

/-- One iteration of the merge loop of `parallel_conduct_interviews`
(lines 87-107): append the separator, then the editor's message log, then
merge its references. The `Option` on the result mirrors the
completion-slot model of `asyncio.gather` below; a slot left empty
contributes only its separator, matching the `"messages" in result`
guard vacuously. -/
def mergeStep (acc : List Message × RefMap) (x : Editor × Option EditorResult) :
    List Message × RefMap :=
  let withSep := acc.1 ++ [separatorFor x.1.name]
  match x.2 with
  | some r => (withSep ++ r.messages, mergeEditorRefs acc.2 x.1.name r.references)
  | none => (withSep, acc.2)

/-- The editor extraction of `parallel_conductor.py`
(`_extract_editors_from_perspectives`, lines 35-63) restricted to the
typed representation: `None` perspectives and an empty editor list raise
`ValueError`. (The dict branches of the source normalize alternative
encodings of the same `Perspectives` value and collapse in a typed
model.) -/
def extract_editors_from_perspectives (perspectives : Option Perspectives) :
    Except String (List Editor) :=
  match perspectives with
  | none => Except.error "No perspectives found in state"
  | some p =>
    if p.editors.isEmpty then Except.error "No editors found in perspectives"
    else Except.ok p.editors

/-- Completion-slot model of `asyncio.gather`: tasks are created one per
editor in registry order; the scheduler completes them in an arbitrary
order (`order` lists task indices in completion order, repetitions
allowed); each completion writes that task's result into its slot. Every
per-editor task is a deterministic function `run` of its editor because
each task runs on its own copied state and shares nothing (lines 11-32 of
`parallel_conductor.py`). -/
def runCompletions (editors : List Editor) (run : Editor → EditorResult)
    (order : List Nat) : Nat → Option EditorResult :=
  order.foldl
    (fun acc i => fun j => if j = i then (editors.get? i).map run else acc j)
    (fun _ => none)

/-- The value `asyncio.gather(*tasks)` hands to the merge loop: the slots
read back in task-creation order, independent of completion order. -/
def gatherResults (editors : List Editor) (run : Editor → EditorResult)
    (order : List Nat) : List (Option EditorResult) :=
  (List.range editors.length).map (runCompletions editors run order)

/-- `parallel_conduct_interviews` (lines 65-117): extract the editors,
run every per-editor interview under the scheduler's completion order,
then fold the merge loop over the registry in its original order,
starting from copies of the base messages and references. -/
def parallel_conduct_interviews (state : State) (run : Editor → EditorResult)
    (order : List Nat) : Except String State :=
  match extract_editors_from_perspectives state.perspectives with
  | Except.error e => Except.error e
  | Except.ok editors =>
    let results := gatherResults editors run order
    let merged := (editors.zip results).foldl mergeStep
      (state.messages, state.references.getD [])
    Except.ok { state with
      messages := merged.1
      references := some merged.2 }

/-- The precondition check of `generate_question` (`question.py`, lines
18-19) followed by the role swap and the model call. The external
inference call is abstracted as the function argument `ask`; the state
rebuild mirrors lines 58-64 of the source. -/
def generate_question (state : InterviewState)
    (ask : List Message → Editor → Message) : Except String InterviewState :=
  match state.editor with
  | none => Except.error
      "Editor not found in state. Make sure to set the editor before starting the interview."
  | some editor =>
    let editorName := sanitize_name editor.name
    let swapped := swap_roles state editorName
    let message := ask swapped.messages editor
    Except.ok
      { messages := state.messages ++ [message]
        editor := state.editor
        references := state.references
        editors := state.editors
        current_editor_index := state.current_editor_index }

/-- Error classes of the spec's error taxonomy: precondition errors
(`ValueError` contract violations) versus transient external-call
failures. -/
inductive ErrClass where
  | precondition
  | transient
deriving DecidableEq, Repr

/-- Modelled from the spec: the host framework's per-node retry policy
(`RetryPolicy(max_attempts=...)` in `interviews_graph/graph.py`, whose
retry predicate lives outside this repository). A node operation is
re-executed on a transient failure up to the attempt cap; a precondition
error is fatal and never retried. Returns the final outcome and the
number of attempts made. -/
def retryNode (maxAttempts : Nat) (op : Nat → Except (ErrClass × String) α) :
    Except (ErrClass × String) α × Nat :=
  go maxAttempts 0
where
  go : Nat → Nat → Except (ErrClass × String) α × Nat
  | 0, used => (Except.error (ErrClass.transient, "retry attempts exhausted"), used)
  | n + 1, used =>
    match op used with
    | Except.ok a => (Except.ok a, used + 1)
    | Except.error (ErrClass.precondition, msg) =>
      (Except.error (ErrClass.precondition, msg), used + 1)
    | Except.error (ErrClass.transient, msg) =>
      if n = 0 then (Except.error (ErrClass.transient, msg), used + 1)
      else go n (used + 1)

/-- Phase of one per-editor task with respect to the semaphore-gated
region of `parallel_conduct_interviews` (lines 72-81): not yet acquired,
inside `async with semaphore`, or finished. -/
inductive Phase where
  | waiting
  | holding
  | done
deriving DecidableEq, Repr

/-- An instant of the cooperative execution: the free-permit count of
`asyncio.Semaphore(max_parallel_interviews)` and the phase of every
task. -/
structure SemConfig where
  permits : Nat
  tasks : List Phase
deriving DecidableEq, Repr

/-- Number of tasks currently inside the gated region. -/
def countHolding (c : SemConfig) : Nat :=
  c.tasks.countP (fun t => t == Phase.holding)

/-- Small-step interleaving semantics of the semaphore: a waiting task may
enter the gated region only when a permit is free, consuming it; a holding
task may leave at any time, releasing its permit. Suspension points inside
the region need no step of their own: they leave both the permit count and
every phase unchanged. -/
inductive SemStep : SemConfig → SemConfig → Prop where
  | acquire (c : SemConfig) (i : Nat)
      (hw : c.tasks.get? i = some Phase.waiting) (hp : 0 < c.permits) :
      SemStep c ⟨c.permits - 1, c.tasks.set i Phase.holding⟩
  | release (c : SemConfig) (i : Nat)
      (hh : c.tasks.get? i = some Phase.holding) :
      SemStep c ⟨c.permits + 1, c.tasks.set i Phase.done⟩

/-- The instant just after `asyncio.gather` creates the tasks: `n` free
permits, every one of the `k` tasks waiting. Task creation itself is
unbounded: `k` is arbitrary. -/
def initConfig (n k : Nat) : SemConfig :=
  ⟨n, List.replicate k Phase.waiting⟩

/-- Configurations the parallel execution can reach from the start, under
every interleaving of task suspensions. -/
inductive SemReachable (n k : Nat) : SemConfig → Prop where
  | init : SemReachable n k (initConfig n k)
  | step {c c2 : SemConfig} : SemReachable n k c → SemStep c c2 →
      SemReachable n k c2

/-- Statement of the spec's reading of the router's end-intent test
(spec 4.3 step 4): the current editor's most recent message of the segment
carries the structured flag or its text ends with the fixed thank-you
phrase. Used to compare the claims against the implementations. -/
def claimEndIntent (current : List Message) (editorName : String) : Bool :=
  match (current.filter (fun m => m.isAI && m.name == some editorName)).getLast? with
  | some m => m.wants_to_end || strEndsWith m.content InterviewsUtils.thankYouPhrase
  | none => false

/-- Statement of the claimed boundary rule for C6: the start index of the
most recent (greatest-index) separator naming the current editor, or 0
when there is none. -/
def mostRecentSeparatorStart (messages : List Message) (editorName : String) : Nat :=
  match messages.reverse.findIdx? (isSeparatorFor editorName) with
  | some j => messages.length - 1 - j
  | none => 0

section Theorems

set_option maxRecDepth 8000

/-- The per-message transform of `swap_roles` is idempotent. -/
theorem swapMsg_idem (name : String) (m : Message) :
    swapMsg name (swapMsg name m) = swapMsg name m := by
  unfold swapMsg
  by_cases hAI : m.isAI = true <;> by_cases hn : m.name = some name <;>
    simp [hAI, hn]

/-- Mapping the per-message transform twice equals mapping it once. -/
theorem map_swapMsg_idem (name : String) (l : List Message) :
    (l.map (swapMsg name)).map (swapMsg name) = l.map (swapMsg name) := by
  induction l with
  | nil => rfl
  | cons m t ih => simp [swapMsg_idem, ih]

/-- C3: `swap_roles` is a pure total function on interview states; every
message not authored by the target identity is relabeled as an incoming
human turn with all other fields preserved, messages authored by the
target identity are returned unchanged, and applying `swap_roles` twice
with the same identity yields the same message log as applying it once. -/
theorem swap_roles_relabels_and_is_idempotent (s : InterviewState) (name : String) :
    (swap_roles s name).messages = s.messages.map (swapMsg name) ∧
    (∀ m : Message, m.name ≠ some name →
      (swapMsg name m).isAI = false ∧
      (swapMsg name m).name = m.name ∧
      (swapMsg name m).content = m.content ∧
      (swapMsg name m).wants_to_end = m.wants_to_end ∧
      (swapMsg name m).end_reason = m.end_reason) ∧
    (∀ m : Message, m.name = some name → swapMsg name m = m) ∧
    (swap_roles (swap_roles s name) name).messages = (swap_roles s name).messages := by
  refine ⟨rfl, ?_, ?_, ?_⟩
  · intro m hm
    unfold swapMsg
    by_cases hAI : m.isAI = true
    · simp [hAI, hm]
    · simp at hAI
      simp [hAI]
  · intro m hm
    unfold swapMsg
    simp [hm]
  · simp only [swap_roles]
    exact map_swapMsg_idem name s.messages

/-- C3 witness: the relabeling and idempotence facts at a concrete state. -/
theorem swap_roles_relabels_and_is_idempotent_witness :
    (({ isAI := true, name := some "expert", content := "a" } : Message).name
        ≠ some "Alice") ∧
    (swapMsg "Alice" { isAI := true, name := some "expert", content := "a" }).isAI
        = false ∧
    (swap_roles (swap_roles
        { messages := [{ isAI := true, name := some "expert", content := "a" }] }
        "Alice") "Alice").messages
      = (swap_roles
        { messages := [{ isAI := true, name := some "expert", content := "a" }] }
        "Alice").messages :=
  ⟨by decide,
   ((swap_roles_relabels_and_is_idempotent
      { messages := [{ isAI := true, name := some "expert", content := "a" }] }
      "Alice").2.1
      { isAI := true, name := some "expert", content := "a" } (by decide)).1,
   (swap_roles_relabels_and_is_idempotent
      { messages := [{ isAI := true, name := some "expert", content := "a" }] }
      "Alice").2.2.2⟩

/-- C5 counterexample: on the empty message log, `route_messages` returns
the route string `"end"`, not `"ask_question"` as claimed. -/
theorem route_messages_empty_returns_end_not_ask :
    Router.route_messages { } = some "end" ∧
    (some "end" : Option String) ≠ some "ask_question" := by
  exact ⟨rfl, by decide⟩

/-- C5 amended: for every interview state whose message log is empty,
`route_messages` returns `"end"` (the session is routed to END, not to
ASK_QUESTION). -/
theorem route_messages_empty_returns_end (s : InterviewState)
    (h : s.messages = []) : Router.route_messages s = some "end" := by
  simp [Router.route_messages, h]

/-- C5 witness: the amended fact at the default (empty) state. -/
theorem route_messages_empty_returns_end_witness :
    ({ } : InterviewState).messages = [] ∧
    Router.route_messages { } = some "end" :=
  ⟨rfl, route_messages_empty_returns_end { } rfl⟩

/-- C8: precondition violations are fatal and raised before any external
call: extraction fails on missing perspectives and on an empty editor
registry; `generate_question` fails on a state with no current editor,
and its outcome does not depend on the inference callback (so no ask
occurs); and the retry policy surfaces a precondition error after exactly
one attempt instead of retrying it. -/
theorem precondition_errors_fatal_and_unretried :
    extract_editors_from_perspectives none =
      Except.error "No perspectives found in state" ∧
    (∀ p : Perspectives, p.editors = [] →
      extract_editors_from_perspectives (some p) =
        Except.error "No editors found in perspectives") ∧
    (∀ (s : InterviewState) (ask ask2 : List Message → Editor → Message),
      s.editor = none →
      generate_question s ask = Except.error
        "Editor not found in state. Make sure to set the editor before starting the interview." ∧
      generate_question s ask = generate_question s ask2) ∧
    (∀ (maxAttempts : Nat) (msg : String)
      (op : Nat → Except (ErrClass × String) InterviewState),
      1 ≤ maxAttempts →
      (∀ a, op a = Except.error (ErrClass.precondition, msg)) →
      retryNode maxAttempts op =
        (Except.error (ErrClass.precondition, msg), 1)) := by
  refine ⟨rfl, ?_, ?_, ?_⟩
  · intro p hp
    simp [extract_editors_from_perspectives, hp]
  · intro s ask ask2 h
    constructor <;> simp [generate_question, h]
  · intro maxAttempts msg op h1 hop
    match maxAttempts, h1 with
    | n + 1, _ => simp [retryNode, retryNode.go, hop]

/-- C8 witness: the precondition failures at concrete inputs. -/
theorem precondition_errors_fatal_and_unretried_witness :
    (⟨[]⟩ : Perspectives).editors = [] ∧
    extract_editors_from_perspectives (some ⟨[]⟩) =
      Except.error "No editors found in perspectives" ∧
    ({ } : InterviewState).editor = none ∧
    generate_question { } (fun _ _ => { isAI := true, name := none, content := "" }) =
      Except.error
        "Editor not found in state. Make sure to set the editor before starting the interview." ∧
    retryNode 5 (fun _ =>
        (Except.error (ErrClass.precondition, "x") :
          Except (ErrClass × String) InterviewState)) =
      (Except.error (ErrClass.precondition, "x"), 1) :=
  ⟨rfl,
   precondition_errors_fatal_and_unretried.2.1 ⟨[]⟩ rfl,
   rfl,
   (precondition_errors_fatal_and_unretried.2.2.1 { }
      (fun _ _ => { isAI := true, name := none, content := "" })
      (fun _ _ => { isAI := true, name := none, content := "" }) rfl).1,
   precondition_errors_fatal_and_unretried.2.2.2 5 "x" _ (by decide)
      (fun _ => rfl)⟩

/-- Counting a predicate over a list with one position overwritten. -/
theorem countP_set_eq (p : Phase → Bool) (l : List Phase) (i : Nat)
    (x y : Phase) (h : l.get? i = some y) :
    (l.set i x).countP p + (if p y then 1 else 0) =
      l.countP p + (if p x then 1 else 0) := by
  induction l generalizing i with
  | nil => simp at h
  | cons a t ih =>
    cases i with
    | zero =>
      rw [List.get?_cons_zero] at h
      injection h with h
      subst h
      simp only [List.set_cons_zero, List.countP_cons]
      omega
    | succ i =>
      rw [List.get?_cons_succ] at h
      have := ih i h
      simp only [List.set_cons_succ, List.countP_cons]
      omega

/-- No task of the initial configuration is inside the gated region. -/
theorem countHolding_init (n k : Nat) : countHolding (initConfig n k) = 0 := by
  simp only [countHolding, initConfig]
  induction k with
  | zero => rfl
  | succ k ih =>
    rw [List.replicate_succ, List.countP_cons]
    simp [ih]

/-- Permit-count invariant of the semaphore semantics: free permits plus
tasks inside the gated region always equal the configured ceiling. -/
theorem sem_invariant {n k : Nat} {c : SemConfig} (h : SemReachable n k c) :
    c.permits + countHolding c = n := by
  induction h with
  | init =>
    rw [countHolding_init]
    rfl
  | step hr hs ih =>
    rename_i c c2
    cases hs with
    | acquire i hw hp =>
      have hc := countP_set_eq (fun t => t == Phase.holding) c.tasks i
        Phase.holding Phase.waiting hw
      simp only [countHolding] at *
      simp at hc
      omega
    | release i hh =>
      have hc := countP_set_eq (fun t => t == Phase.holding) c.tasks i
        Phase.done Phase.holding hh
      simp only [countHolding] at *
      simp at hc
      omega

/-- C9: for every concurrency ceiling `n`, every registry size `k` and
every interleaving of task suspensions, at no reachable instant do more
than `n` editor conversations hold a permit of the gated region
simultaneously. -/
theorem semaphore_bounds_concurrent_holders (n k : Nat) (c : SemConfig)
    (h : SemReachable n k c) : countHolding c ≤ n := by
  have := sem_invariant h
  omega

/-- C9 witness: the bound at a concrete reachable instant. -/
theorem semaphore_bounds_concurrent_holders_witness :
    SemReachable 2 5 (initConfig 2 5) ∧ countHolding (initConfig 2 5) ≤ 2 :=
  ⟨SemReachable.init,
   semaphore_bounds_concurrent_holders 2 5 (initConfig 2 5) SemReachable.init⟩

/-- Every write to one completion slot stores the same deterministic
per-editor result, so after any completion order that reaches a slot the
slot holds that result. -/
theorem runCompletions_eq (editors : List Editor) (run : Editor → EditorResult)
    (order : List Nat) (acc : Nat → Option EditorResult) (i : Nat) :
    order.foldl
      (fun acc i => fun j => if j = i then (editors.get? i).map run else acc j)
      acc i =
      if i ∈ order then (editors.get? i).map run else acc i := by
  induction order generalizing acc with
  | nil => simp
  | cons o rest ih =>
    simp only [List.foldl_cons]
    rw [ih]
    by_cases hio : i ∈ rest
    · simp [hio]
    · by_cases hoi : i = o
      · subst hoi
        simp [hio]
      · simp [hio, hoi]

/-- Reading every index of a list through `get?` in order reproduces the
list. -/
theorem range_map_get?_map (l : List Editor) (f : Editor → EditorResult) :
    (List.range l.length).map (fun i => (l.get? i).map f) =
      l.map (fun a => some (f a)) := by
  induction l with
  | nil => rfl
  | cons a t ih =>
    rw [List.length_cons, List.range_succ_eq_map, List.map_cons, List.map_map]
    exact congrArg (some (f a) :: ·) ih

/-- Under a completion order that completes every task, `asyncio.gather`
returns exactly the per-editor results in task-creation order. -/
theorem gatherResults_eq (editors : List Editor) (run : Editor → EditorResult)
    (order : List Nat)
    (hcov : ∀ i ∈ List.range editors.length, i ∈ order) :
    gatherResults editors run order = editors.map (fun e => some (run e)) := by
  unfold gatherResults runCompletions
  rw [List.map_congr_left (fun i hi => by
    rw [runCompletions_eq, if_pos (hcov i hi)])]
  exact range_map_get?_map editors run

/-- The merge loop over registry-ordered results produces the base
messages followed by the per-editor segments in registry order, and folds
the reference maps in registry order. -/
theorem merge_fold_eq (run : Editor → EditorResult) (editors : List Editor)
    (base : List Message) (refs : RefMap) :
    (editors.zip (editors.map (fun e => some (run e)))).foldl mergeStep
      (base, refs) =
      (base ++ editors.flatMap (fun e => separatorFor e.name :: (run e).messages),
       editors.foldl
        (fun acc e => mergeEditorRefs acc e.name (run e).references) refs) := by
  induction editors generalizing base refs with
  | nil => simp
  | cons a t ih =>
    simp only [List.map_cons, List.zip_cons_cons, List.foldl_cons]
    rw [ih]
    simp [mergeStep, List.flatMap_cons]

/-- C1: in parallel mode, for every base state, every editor registry,
every deterministic per-editor outcome and every completion order that
finishes all tasks, the merged output of `parallel_conduct_interviews`
is the base messages followed, for each editor in original registry
order, by a system separator naming that editor and then that editor's
message log. -/
theorem parallel_merge_is_registry_ordered
    (state : State) (p : Perspectives) (run : Editor → EditorResult)
    (order : List Nat)
    (hp : state.perspectives = some p) (hne : p.editors ≠ [])
    (hcov : ∀ i ∈ List.range p.editors.length, i ∈ order) :
    ∃ merged : State,
      parallel_conduct_interviews state run order = Except.ok merged ∧
      merged.messages = state.messages ++
        p.editors.flatMap (fun e => separatorFor e.name :: (run e).messages) := by
  have hemp : p.editors.isEmpty = false := by
    cases hpe : p.editors with
    | nil => exact absurd hpe hne
    | cons a t => rfl
  unfold parallel_conduct_interviews extract_editors_from_perspectives
  rw [hp]
  simp only [hemp, Bool.false_eq_true, if_false]
  rw [gatherResults_eq p.editors run order hcov, merge_fold_eq]
  exact ⟨_, rfl, rfl⟩

/-- A concrete editor used by witnesses and counterexamples. -/
def aliceEditor : Editor := ⟨"Aff", "Alice", "Writer", "Desc"⟩

/-- A second concrete editor used by witnesses and counterexamples. -/
def bobEditor : Editor := ⟨"Aff", "Bob", "Critic", "Desc"⟩

/-- A concrete reply message attributed to the first demo editor. -/
def aliceReply : Message := { isAI := true, name := some "Alice", content := "from Alice" }

/-- A concrete reply message attributed to the second demo editor. -/
def bobReply : Message := { isAI := true, name := some "Bob", content := "from Bob" }

/-- A deterministic per-editor outcome: both demo editors produce one
message and one reference under the same source identifier `u`. -/
def demoRun : Editor → EditorResult := fun e =>
  if e.name = "Alice" then { messages := [aliceReply], references := [("u", "cA")] }
  else { messages := [bobReply], references := [("u", "cB")] }

/-- A concrete base state carrying the two demo editors. -/
def demoState : State :=
  { messages := [{ isAI := true, name := some "expert", content := "hello" }]
    references := some []
    perspectives := some ⟨[aliceEditor, bobEditor]⟩ }

/-- C1 witness: the registry-order guarantee at a concrete state under the
reversed completion order `[1, 0]`. -/
theorem parallel_merge_is_registry_ordered_witness :
    (∀ i ∈ List.range
        ((⟨[aliceEditor, bobEditor]⟩ : Perspectives).editors.length),
      i ∈ [1, 0]) ∧
    (∃ merged : State,
      parallel_conduct_interviews demoState demoRun [1, 0] = Except.ok merged ∧
      merged.messages = demoState.messages ++
        (⟨[aliceEditor, bobEditor]⟩ : Perspectives).editors.flatMap
          (fun e => separatorFor e.name :: (demoRun e).messages)) :=
  ⟨by decide,
   parallel_merge_is_registry_ordered demoState ⟨[aliceEditor, bobEditor]⟩
     demoRun [1, 0] rfl (by decide) (by decide)⟩

/-- A base reference map that already holds content under the key the
merge would use as the second editor's prefixed key. -/
def collidingBase : RefMap := [("Bob_u", "c3")]

/-- A base state whose reference map collides with the prefixed key. -/
def collidingState : State :=
  { messages := []
    references := some collidingBase
    perspectives := some ⟨[aliceEditor, bobEditor]⟩ }

/-- C7 counterexample: both demo editors produce a reference under the
same identifier `u`; the merge yields the two claimed keys, but the
content `c3` that the base map held under the prefixed key `Bob_u` is
overwritten and lost, refuting the no-loss part of the claim. -/
theorem reference_merge_loses_content_on_prefix_collision :
    (demoRun aliceEditor).references = [("u", "cA")] ∧
    (demoRun bobEditor).references = [("u", "cB")] ∧
    dictGet collidingBase "Bob_u" = some "c3" ∧
    (parallel_conduct_interviews collidingState demoRun [0, 1]).toOption.map
        (fun s => s.references) =
      some (some [("Bob_u", "cB"), ("u", "cA")]) ∧
    ("c3" ∈ ([("Bob_u", "cB"), ("u", "cA")] : RefMap).map Prod.snd) = False := by
  refine ⟨by decide, by decide, by decide, by decide, by decide⟩

/-- Membership of a key in the keys of an appended reference map. -/
theorem dictContains_append (m1 m2 : RefMap) (k : String) :
    dictContains (m1 ++ m2) k = (dictContains m1 k || dictContains m2 k) := by
  simp only [dictContains, dictKeys, List.map_append]
  by_cases h1 : k ∈ List.map Prod.fst m1 <;>
    by_cases h2 : k ∈ List.map Prod.fst m2 <;>
      simp [h1, h2, List.mem_append]

/-- C7 amended: when two editors produce a reference under the same
source identifier and the second editor's prefixed key is still free in
the base map, the merged map is exactly the base map extended with the
two distinct keys (the original identifier carrying the first editor's
content, the editor-prefixed identifier carrying the second's); nothing
is overwritten. When the prefixed key already occurs, content is
overwritten (see the counterexample). -/
theorem reference_merge_two_distinct_keys_when_prefix_fresh
    (state : State) (e1 e2 : Editor) (run : Editor → EditorResult)
    (order : List Nat) (base : RefMap) (u c1 c2 : String)
    (hp : state.perspectives = some ⟨[e1, e2]⟩)
    (hrefs : state.references = some base)
    (h1 : (run e1).references = [(u, c1)])
    (h2 : (run e2).references = [(u, c2)])
    (hu : dictContains base u = false)
    (hw : dictContains base (e2.name ++ "_" ++ u) = false)
    (hcov : ∀ i ∈ List.range 2, i ∈ order) :
    ∃ merged : State,
      parallel_conduct_interviews state run order = Except.ok merged ∧
      merged.references = some (base ++ [(u, c1), (e2.name ++ "_" ++ u, c2)]) ∧
      u ≠ e2.name ++ "_" ++ u := by
  have hne : u ≠ e2.name ++ "_" ++ u := by
    intro heq
    have := congrArg String.length heq
    have hlen : ("_" : String).length = 1 := rfl
    simp only [String.length_append, hlen] at this
    omega
  unfold parallel_conduct_interviews extract_editors_from_perspectives
  rw [hp]
  simp only [List.isEmpty_cons, Bool.false_eq_true, if_false]
  rw [gatherResults_eq [e1, e2] run order hcov, merge_fold_eq]
  refine ⟨_, rfl, ?_, hne⟩
  simp only [List.foldl_cons, List.foldl_nil, hrefs, Option.getD_some, h1, h2]
  have step1 : mergeEditorRefs base e1.name [(u, c1)] = base ++ [(u, c1)] := by
    simp [mergeEditorRefs, hu, dictInsert]
  rw [step1]
  have hcont : dictContains (base ++ [(u, c1)]) u = true := by
    rw [dictContains_append]
    simp [dictContains, dictKeys]
  have hfresh : dictContains (base ++ [(u, c1)]) (e2.name ++ "_" ++ u) = false := by
    rw [dictContains_append, hw]
    simp [dictContains, dictKeys]
    exact fun h => absurd h.symm hne
  simp [mergeEditorRefs, hcont, hfresh, dictInsert]

/-- C7 witness: the amended guarantee at a fresh base map. -/
theorem reference_merge_two_distinct_keys_witness :
    (∀ i ∈ List.range 2, i ∈ [0, 1]) ∧
    (∃ merged : State,
      parallel_conduct_interviews demoState demoRun [0, 1] = Except.ok merged ∧
      merged.references = some ([] ++ [("u", "cA"), ("Bob_u", "cB")]) ∧
      "u" ≠ "Bob" ++ "_" ++ "u") :=
  ⟨by decide,
   by
    have := reference_merge_two_distinct_keys_when_prefix_fresh demoState
      aliceEditor bobEditor demoRun [0, 1] [] "u" "cA" "cB"
      rfl rfl (by decide) (by decide) (by decide) (by decide) (by decide)
    exact this⟩

/-- A concrete expert answer message. -/
def expertAnswer : Message := { isAI := true, name := some "expert", content := "an answer" }

/-- A concrete editor question carrying the structured end-intent flag. -/
def aliceEndFlagMsg : Message :=
  { isAI := true, name := some "Alice", content := "my question", wants_to_end := true }

/-- A concrete human (non-AI) message. -/
def humanMsg : Message := { isAI := false, name := none, content := "noise" }

/-- A concrete editor message ending with the legacy thank-you phrase. -/
def aliceThanksMsg : Message :=
  { isAI := true, name := some "Alice", content := "Great. Thank you so much for your help!" }

/-- A post-answer state whose editor's most recent message ends with the
thank-you phrase but carries no structured flag. -/
def thanksState : InterviewState :=
  { messages := [aliceThanksMsg, expertAnswer], editor := some aliceEditor }

/-- A post-answer state whose editor's most recent message carries the
structured flag but not the phrase. -/
def flagState : InterviewState :=
  { messages := [aliceEndFlagMsg, expertAnswer], editor := some aliceEditor }

/-- A post-answer state where the editor's most recent message carries the
flag but is not the second-to-last message of the segment. -/
def earlyEndState : InterviewState :=
  { messages := [aliceEndFlagMsg, humanMsg, expertAnswer], editor := some aliceEditor }

/-- A state whose log contains two separators naming the current editor,
with three expert answers between them and one after the second. -/
def repeatedSepState : InterviewState :=
  { messages := [separatorFor "Alice", expertAnswer, expertAnswer, expertAnswer,
      separatorFor "Alice", expertAnswer]
    editor := some aliceEditor }

/-- When the last message of the current segment is an expert-authored AI
message, `routeCore` routes by the penultimate-flag test and then the
expert-response cap. -/
theorem routeCore_expert_last (messages : List Message) (name : String)
    (h : ((messages.drop (conversation_start messages name)).getLast?).any
      (fun m => m.isAI && m.name == some EXPERT_NAME) = true) :
    Router.routeCore messages name =
      if Router.prevEditorWantsEnd
        (messages.drop (conversation_start messages name)) name then "next_editor"
      else if MAX_TURNS ≤ Router.expertResponses
        (messages.drop (conversation_start messages name)) then "next_editor"
      else "ask_question" := by
  unfold Router.routeCore
  cases hl : (messages.drop (conversation_start messages name)).getLast? with
  | none =>
    rw [hl] at h
    simp [Option.any] at h
  | some last =>
    rw [hl] at h
    simp only [Option.any] at h
    simp only [hl]
    rw [if_pos h]

/-- C2 counterexample: a post-answer state below the turn cap whose
editor's most recent message carries the structured end-intent flag; the
claim requires NEXT_EDITOR, but because that message is not the
second-to-last of the segment the code returns ASK_QUESTION. -/
theorem router_ignores_non_penultimate_end_intent :
    Router.expertResponses (earlyEndState.messages.drop
        (conversation_start earlyEndState.messages
          (sanitize_name aliceEditor.name))) < MAX_TURNS ∧
    claimEndIntent (earlyEndState.messages.drop
        (conversation_start earlyEndState.messages
          (sanitize_name aliceEditor.name)))
        (sanitize_name aliceEditor.name) = true ∧
    ((earlyEndState.messages.drop
        (conversation_start earlyEndState.messages
          (sanitize_name aliceEditor.name))).getLast?).any
        (fun m => m.isAI && m.name == some EXPERT_NAME) = true ∧
    Router.route_messages earlyEndState = some "ask_question" ∧
    (some "ask_question" : Option String) ≠ some "next_editor" := by
  decide

/-- C2 amended: for every state on which the router runs after an answer
(the segment's last message is an expert-authored AI message),
`route_messages` returns NEXT_EDITOR iff the segment's second-to-last
message is authored by the current editor and carries the structured
end-intent flag, or the expert-response count of the segment is at least
MAX_TURNS; in every other such case it returns ASK_QUESTION. -/
theorem route_messages_next_editor_iff (s : InterviewState) (ed : Editor)
    (h1 : s.editor = some ed)
    (h3 : ((s.messages.drop (conversation_start s.messages
        (sanitize_name ed.name))).getLast?).any
      (fun m => m.isAI && m.name == some EXPERT_NAME) = true) :
    (Router.route_messages s = some "next_editor" ↔
      (Router.prevEditorWantsEnd
          (s.messages.drop (conversation_start s.messages
            (sanitize_name ed.name))) (sanitize_name ed.name) = true ∨
        MAX_TURNS ≤ Router.expertResponses
          (s.messages.drop (conversation_start s.messages
            (sanitize_name ed.name))))) ∧
    (Router.route_messages s = some "ask_question" ↔
      ¬(Router.prevEditorWantsEnd
          (s.messages.drop (conversation_start s.messages
            (sanitize_name ed.name))) (sanitize_name ed.name) = true ∨
        MAX_TURNS ≤ Router.expertResponses
          (s.messages.drop (conversation_start s.messages
            (sanitize_name ed.name))))) := by
  have hne : s.messages.isEmpty = false := by
    cases hm : s.messages with
    | nil => simp [hm] at h3
    | cons a t => rfl
  unfold Router.route_messages
  rw [hne, h1]
  simp only [Bool.false_eq_true, if_false, Option.some.injEq]
  rw [routeCore_expert_last s.messages (sanitize_name ed.name) h3]
  by_cases hw : Router.prevEditorWantsEnd
      (s.messages.drop (conversation_start s.messages
        (sanitize_name ed.name))) (sanitize_name ed.name) = true
  · simp [hw]
  · by_cases hc : MAX_TURNS ≤ Router.expertResponses
        (s.messages.drop (conversation_start s.messages
          (sanitize_name ed.name)))
    · simp [hw, hc]
    · simp [hw, hc]

/-- C2 witness: the amended routing equivalence at a concrete post-answer
state in which the flag sits on the second-to-last message. -/
theorem route_messages_next_editor_iff_witness :
    flagState.editor = some aliceEditor ∧
    ((flagState.messages.drop (conversation_start flagState.messages
        (sanitize_name aliceEditor.name))).getLast?).any
      (fun m => m.isAI && m.name == some EXPERT_NAME) = true ∧
    ((Router.route_messages flagState = some "next_editor" ↔
      (Router.prevEditorWantsEnd
          (flagState.messages.drop (conversation_start flagState.messages
            (sanitize_name aliceEditor.name))) (sanitize_name aliceEditor.name) = true ∨
        MAX_TURNS ≤ Router.expertResponses
          (flagState.messages.drop (conversation_start flagState.messages
            (sanitize_name aliceEditor.name))))) ∧
    (Router.route_messages flagState = some "ask_question" ↔
      ¬(Router.prevEditorWantsEnd
          (flagState.messages.drop (conversation_start flagState.messages
            (sanitize_name aliceEditor.name))) (sanitize_name aliceEditor.name) = true ∨
        MAX_TURNS ≤ Router.expertResponses
          (flagState.messages.drop (conversation_start flagState.messages
            (sanitize_name aliceEditor.name)))))) :=
  ⟨rfl, by decide,
   route_messages_next_editor_iff flagState aliceEditor rfl (by decide)⟩

/-- C4 counterexample: below the turn cap, the editor's most recent
message ends with the fixed thank-you phrase, yet `router.py` returns
ASK_QUESTION (it never checks the phrase); dually, with the structured
flag set, `interviews/utils.py` returns ASK_QUESTION (it never checks the
flag). The claimed disjunction holds in neither implementation. -/
theorem end_signal_disjunction_fails :
    Router.expertResponses (thanksState.messages.drop
        (conversation_start thanksState.messages
          (sanitize_name aliceEditor.name))) < MAX_TURNS ∧
    claimEndIntent (thanksState.messages.drop
        (conversation_start thanksState.messages
          (sanitize_name aliceEditor.name)))
        (sanitize_name aliceEditor.name) = true ∧
    Router.route_messages thanksState = some "ask_question" ∧
    InterviewsUtils.currentResponses (flagState.messages.drop
        (conversation_start flagState.messages
          (sanitize_name aliceEditor.name)))
        (sanitize_name aliceEditor.name) < MAX_TURNS ∧
    claimEndIntent (flagState.messages.drop
        (conversation_start flagState.messages
          (sanitize_name aliceEditor.name)))
        (sanitize_name aliceEditor.name) = true ∧
    InterviewsUtils.route_messages flagState = some "ask_question" := by
  decide

/-- C4 amended: each implementation honors exactly one of the two end
signals. `router.py` returns NEXT_EDITOR below the turn cap when the
segment's second-to-last message is the current editor's and carries the
structured flag (the phrase is ignored); `interviews/utils.py` returns
NEXT_EDITOR below its turn count when the editor's most recent segment
message ends with the fixed phrase (the flag is ignored). -/
theorem end_signals_route_next_editor :
    (∀ (s : InterviewState) (ed : Editor),
      s.editor = some ed →
      ((s.messages.drop (conversation_start s.messages
          (sanitize_name ed.name))).getLast?).any
        (fun m => m.isAI && m.name == some EXPERT_NAME) = true →
      Router.prevEditorWantsEnd
        (s.messages.drop (conversation_start s.messages
          (sanitize_name ed.name))) (sanitize_name ed.name) = true →
      Router.expertResponses
        (s.messages.drop (conversation_start s.messages
          (sanitize_name ed.name))) < MAX_TURNS →
      Router.route_messages s = some "next_editor") ∧
    (∀ (s : InterviewState) (ed : Editor) (m : Message),
      s.editor = some ed →
      InterviewsUtils.currentResponses
        (s.messages.drop (conversation_start s.messages
          (sanitize_name ed.name))) (sanitize_name ed.name) < MAX_TURNS →
      2 ≤ (s.messages.drop (conversation_start s.messages
          (sanitize_name ed.name))).length →
      ((s.messages.drop (conversation_start s.messages
          (sanitize_name ed.name))).filter
        (fun m => m.isAI && m.name == some (sanitize_name ed.name))).getLast?
        = some m →
      strEndsWith m.content InterviewsUtils.thankYouPhrase = true →
      InterviewsUtils.route_messages s = some "next_editor") := by
  constructor
  · intro s ed h1 h3 hw hc
    have hne : s.messages.isEmpty = false := by
      cases hm : s.messages with
      | nil => simp [hm] at h3
      | cons a t => rfl
    unfold Router.route_messages
    rw [hne, h1]
    simp only [Bool.false_eq_true, if_false, Option.some.injEq]
    rw [routeCore_expert_last s.messages (sanitize_name ed.name) h3]
    rw [if_pos hw]
  · intro s ed m h1 hcount hlen hm hphrase
    have hne : s.messages.isEmpty = false := by
      cases hmm : s.messages with
      | nil => rw [hmm] at hlen; simp at hlen
      | cons a t => rfl
    unfold InterviewsUtils.route_messages
    rw [hne, h1]
    simp only [Bool.false_eq_true, if_false, Option.some.injEq]
    unfold InterviewsUtils.routeCore
    rw [if_neg (by omega : ¬ MAX_TURNS ≤ InterviewsUtils.currentResponses
      (s.messages.drop (conversation_start s.messages
        (sanitize_name ed.name))) (sanitize_name ed.name))]
    rw [if_neg (by omega : ¬ (s.messages.drop (conversation_start s.messages
      (sanitize_name ed.name))).length < 2)]
    simp [hm, hphrase]

/-- C4 witness: each honored signal at its concrete state. -/
theorem end_signals_route_next_editor_witness :
    Router.route_messages flagState = some "next_editor" ∧
    InterviewsUtils.route_messages thanksState = some "next_editor" :=
  ⟨end_signals_route_next_editor.1 flagState aliceEditor rfl (by decide)
    (by decide) (by decide),
   end_signals_route_next_editor.2 thanksState aliceEditor aliceThanksMsg rfl
    (by decide) (by decide) (by decide) (by decide)⟩

/-- C6 counterexample: with two separators naming the current editor at
indices 0 and 4, the boundary scan of `route_messages` returns index 0
(the first separator), not index 4 (the most recent); consequently the
code counts four expert responses and routes NEXT_EDITOR, although
counting only after the most recent separator stays below the cap with no
end intent, which under the claim would give ASK_QUESTION. -/
theorem router_uses_first_separator_not_most_recent :
    conversation_start repeatedSepState.messages
        (sanitize_name aliceEditor.name) = 0 ∧
    mostRecentSeparatorStart repeatedSepState.messages
        (sanitize_name aliceEditor.name) = 4 ∧
    (0 : Nat) ≠ 4 ∧
    Router.route_messages repeatedSepState = some "next_editor" ∧
    Router.expertResponses (repeatedSepState.messages.drop 4) < MAX_TURNS ∧
    Router.prevEditorWantsEnd (repeatedSepState.messages.drop 4)
        (sanitize_name aliceEditor.name) = false := by
  decide

/-- C6 amended: the boundary scan used by `route_messages` selects the
earliest (least-index) system separator naming the current editor —
whenever some index holds such a separator, the selected boundary is a
separator index and is at most that index — and expert responses are
counted in the suffix from that boundary. -/
theorem conversation_start_is_earliest_separator (messages : List Message)
    (name : String) (i : Nat)
    (hi : (messages.get? i).any (isSeparatorFor name) = true) :
    conversation_start messages name ≤ i ∧
    (messages.get? (conversation_start messages name)).any
      (isSeparatorFor name) = true := by
  unfold conversation_start
  cases hf : messages.findIdx? (isSeparatorFor name) with
  | none =>
    exfalso
    have hnone := List.findIdx?_of_eq_none hf i
    cases hg : messages.get? i with
    | none => rw [hg] at hi; simp [Option.any] at hi
    | some m =>
      rw [hg] at hi
      simp only [Option.any] at hi
      rw [List.get?_eq_getElem?] at hg
      rw [hg] at hnone
      simp only at hnone
      exact hnone hi
  | some j =>
    rw [List.findIdx?_eq_some_iff_getElem] at hf
    obtain ⟨hjlen, hpj, hmin⟩ := hf
    constructor
    · by_contra hgt
      push_neg at hgt
      have hilen : i < messages.length := Nat.lt_trans hgt hjlen
      have hgi : messages.get? i = some (messages.get ⟨i, hilen⟩) := by
        rw [List.get?_eq_getElem?, List.getElem?_eq_getElem hilen]
        rfl
      rw [hgi] at hi
      simp only [Option.any] at hi
      have := hmin i hgt
      simp only [List.get_eq_getElem] at hi
      exact this hi
    · have hgj : messages.get? j = some (messages.get ⟨j, hjlen⟩) := by
        rw [List.get?_eq_getElem?, List.getElem?_eq_getElem hjlen]
        rfl
      rw [hgj]
      simp only [Option.any, List.get_eq_getElem]
      exact hpj

/-- C6 witness: the earliest-separator property at a concrete log. -/
theorem conversation_start_is_earliest_separator_witness :
    (([humanMsg, separatorFor "Alice"].get? 1).any
      (isSeparatorFor "Alice") = true) ∧
    conversation_start [humanMsg, separatorFor "Alice"] "Alice" ≤ 1 ∧
    (([humanMsg, separatorFor "Alice"].get?
        (conversation_start [humanMsg, separatorFor "Alice"] "Alice")).any
      (isSeparatorFor "Alice") = true) :=
  ⟨by decide,
   (conversation_start_is_earliest_separator [humanMsg, separatorFor "Alice"]
      "Alice" 1 (by decide)).1,
   (conversation_start_is_earliest_separator [humanMsg, separatorFor "Alice"]
      "Alice" 1 (by decide)).2⟩

/-- Every branch of `router.py`'s core returns a continue-or-advance
route, never the end route. -/
theorem router_routeCore_ne_end (messages : List Message) (name : String) :
    Router.routeCore messages name ≠ "end" := by
  simp only [Router.routeCore]
  split
  · decide
  · split_ifs <;> decide

/-- Every branch of `interviews/utils.py`'s core returns a
continue-or-advance route, never the end route. -/
theorem utils_routeCore_ne_end (messages : List Message) (name : String) :
    InterviewsUtils.routeCore messages name ≠ "end" := by
  simp only [InterviewsUtils.routeCore]
  split_ifs
  · decide
  · decide
  · split
    · split_ifs <;> decide
    · decide

/-- C10 counterexample: a state on which the two `route_messages`
implementations disagree — the editor's most recent message ends with the
thank-you phrase without the structured flag, so `interviews/utils.py`
advances while `router.py` keeps asking. -/
theorem route_messages_implementations_disagree :
    Router.route_messages thanksState = some "ask_question" ∧
    InterviewsUtils.route_messages thanksState = some "next_editor" ∧
    Router.route_messages thanksState ≠
      InterviewsUtils.route_messages thanksState := by
  decide

/-- C10 amended: the two implementations are not equivalent (see the
counterexample); what they do agree on is the END route — each returns
END exactly on the empty message log. -/
theorem routers_return_end_only_on_empty_log (s : InterviewState) :
    (Router.route_messages s = some "end" ↔ s.messages = []) ∧
    (InterviewsUtils.route_messages s = some "end" ↔ s.messages = []) := by
  cases hm : s.messages with
  | nil =>
    constructor <;>
      simp [Router.route_messages, InterviewsUtils.route_messages, hm]
  | cons a t =>
    have hne : s.messages.isEmpty = false := by rw [hm]; rfl
    constructor
    · unfold Router.route_messages
      rw [hne]
      simp only [Bool.false_eq_true, if_false]
      cases he : s.editor with
      | none => simp [hm]
      | some ed =>
        simp only [Option.some.injEq]
        apply iff_of_false
        · exact router_routeCore_ne_end s.messages (sanitize_name ed.name)
        · simp [hm]
    · unfold InterviewsUtils.route_messages
      rw [hne]
      simp only [Bool.false_eq_true, if_false]
      cases he : s.editor with
      | none => simp [hm]
      | some ed =>
        simp only [Option.some.injEq]
        apply iff_of_false
        · exact utils_routeCore_ne_end s.messages (sanitize_name ed.name)
        · simp [hm]

/-- C10 witness: the end-agreement facts at a concrete state. -/
theorem routers_return_end_only_on_empty_log_witness :
    (Router.route_messages thanksState = some "end" ↔
      thanksState.messages = []) ∧
    (InterviewsUtils.route_messages thanksState = some "end" ↔
      thanksState.messages = []) :=
  routers_return_end_only_on_empty_log thanksState

end Theorems
